import Mathlib

/-!
Shallow embedding of the rusty_pizza billing core
(src/rusty_pizza_server/src): the Money value type (util/money.rs), the
id generator (util/id_provider.rs), meals and the meal factory
(order_model/meal.rs), the per-participant Meals ledger
(order_model/meals.rs) and the Order aggregate (order_model/order.rs).

Modelling conventions:
* Rust u32/u8 values are Nat.  Checked debug-build arithmetic that can
  fail (subtraction underflow, multiplication overflow) is Option-valued;
  `none` models the panic.  Where the source guards a subtraction by a
  comparison, plain Nat subtraction is used, since the guard makes it
  exact.
* Rust HashMap is an association list (one possible iteration order);
  HashMap::insert replaces the value of an existing key.  HashSet is a
  Finset.
* order.rs refers to a Meals variant storing the owner user and to
  Money::zero(); in this embedding the Order map key is the owner
  (get_owner() of a ledger is its key) and Money.zero is the zero amount.
-/

namespace RustyPizza

/-- 2^32, the modulus of Rust's u32. -/
def U32MOD : Nat := 4294967296

/-- Money (util/money.rs): a non-negative amount in integer cents, stored
as a u32.  The Nat field holds the values actually constructed (a debug
build panics before a wrapped value could exist). -/
structure Money where
  cents : Nat
  deriving DecidableEq

/-- Money::new(euros, cents): euros * 100 + cents as u32.  cents is a u8
and may exceed 99; the surplus carries into euros. -/
def Money.new (euros : Nat) (c : Nat) : Money :=
  ⟨euros * 100 + c⟩

/-- Money::zero() as used by order.rs: the zero amount. -/
def Money.zero : Money := ⟨0⟩

/-- Money::get_euros: cents / 100. -/
def Money.get_euros (m : Money) : Nat := m.cents / 100

/-- Money::get_cents: cents % 100 (fits a u8). -/
def Money.get_cents (m : Money) : Nat := m.cents % 100

/-- Money::get_total_cents. -/
def Money.get_total_cents (m : Money) : Nat := m.cents

/-- impl Add for Money: exact cent addition. -/
def Money.add (a b : Money) : Money := ⟨a.cents + b.cents⟩

/-- impl Sub for Money: self.cents - other.cents on u32.  In a debug
build the subtraction panics when the subtrahend exceeds the minuend
(the repository's own should_panic test exercises this); `none` models
that panic. -/
def Money.sub? (a b : Money) : Option Money :=
  if b.cents ≤ a.cents then some ⟨a.cents - b.cents⟩ else none

/-- impl Mul of u32 for Money: self.cents * other on u32.  A debug build
panics when the product overflows u32; `none` models that panic. -/
def Money.mul? (a : Money) (n : Nat) : Option Money :=
  if a.cents * n < U32MOD then some ⟨a.cents * n⟩ else none

/-- impl Display for Money: write!(f, with euros, a comma, cents and the
euro sign).  Rust's default integer Display is plain decimal, with no
zero padding. -/
def moneyDisplay (m : Money) : String :=
  Nat.repr m.get_euros ++ "," ++ Nat.repr m.get_cents ++ "€"

/-- C4: Money subtraction is exact under its precondition and fails fast
otherwise: for all non-negative u1,c1,u2,c2 with u1*100+c1 >= u2*100+c2,
Money.new u1 c1 minus Money.new u2 c2 has exactly
(u1*100+c1) - (u2*100+c2) total cents; and whenever the subtrahend
exceeds the minuend the subtraction fails (panics) instead of clamping,
so no negative Money value is ever produced. -/
theorem money_sub_exact_and_fail_fast (u1 c1 u2 c2 : Nat)
    (h : u2 * 100 + c2 ≤ u1 * 100 + c1) :
    Money.sub? (Money.new u1 c1) (Money.new u2 c2)
      = some ⟨(u1 * 100 + c1) - (u2 * 100 + c2)⟩
    ∧ ∀ a b : Money, a.cents < b.cents → Money.sub? a b = none := by
  constructor
  · simp [Money.sub?, Money.new, h]
  · intro a b hab
    simp [Money.sub?, Nat.not_le.mpr hab]

/-- Witness for C4 at the repository's own test case 7,20 - 5,55 = 165
cents, together with a fail-fast instance. -/
theorem money_sub_exact_and_fail_fast_witness :
    Money.sub? (Money.new 7 20) (Money.new 5 55) = some ⟨165⟩
    ∧ Money.sub? (Money.new 7 20) (Money.new 7 40) = none := by
  have h := money_sub_exact_and_fail_fast 7 20 5 55 (by decide)
  exact ⟨h.1, h.2 (Money.new 7 20) (Money.new 7 40) (by decide)⟩

/-- C6: scalar multiplication is exact scaling: whenever the u32 product
does not overflow (a debug build panics otherwise, returning nothing),
multiply returns a Money whose total cents equal the input's total cents
times the scalar, with no rounding. -/
theorem money_mul_exact (a : Money) (n : Nat) (h : a.cents * n < U32MOD) :
    ∃ r : Money, Money.mul? a n = some r
      ∧ r.get_total_cents = a.get_total_cents * n := by
  exact ⟨⟨a.cents * n⟩, by simp [Money.mul?, h], rfl⟩

/-- Witness for C6 at the repository's own test case 2,05 * 3 = 615
cents. -/
theorem money_mul_exact_witness :
    ∃ r : Money, Money.mul? (Money.new 2 5) 3 = some r
      ∧ r.get_total_cents = (Money.new 2 5).get_total_cents * 3 :=
  money_mul_exact (Money.new 2 5) 3 (by decide)

/-- C7 counterexample: the Money of 2 euros and 5 cents displays as
"2,5€" — the cents part is NOT zero-padded to two digits, contradicting
the claimed "05" rendering. -/
theorem money_display_not_padded :
    moneyDisplay (Money.new 2 5) = "2,5€"
    ∧ moneyDisplay (Money.new 2 5) ≠ "2,05€" := by
  constructor
  · rfl
  · decide

/-- C7 (amended): the Display output is the whole-unit count in decimal,
a comma, the cent remainder in plain decimal with no zero padding, then
the euro sign. -/
theorem money_display_unpadded (u c : Nat) (hc : c < 100) :
    moneyDisplay (Money.new u c) = Nat.repr u ++ "," ++ Nat.repr c ++ "€" := by
  have he : (Money.new u c).get_euros = u := by
    simp [Money.new, Money.get_euros, Nat.add_comm (u * 100) c]
    omega
  have hc' : (Money.new u c).get_cents = c := by
    simp [Money.new, Money.get_cents, Nat.add_mul_mod_self_right]
    omega
  simp [moneyDisplay, he, hc']

/-- Witness for C7's amended claim at the repository's own display test
value 2,99. -/
theorem money_display_unpadded_witness :
    moneyDisplay (Money.new 2 99) = Nat.repr 2 ++ "," ++ Nat.repr 99 ++ "€" :=
  money_display_unpadded 2 99 (by decide)

/-- IdProvider (util/id_provider.rs): a monotonically increasing u32
counter. -/
structure IdProvider where
  next_id : Nat
  deriving DecidableEq

/-- IdProvider::new(): counter starts at 0. -/
def IdProvider.new : IdProvider := ⟨0⟩

/-- IdProvider::start_by(starting_value): counter starts at the given
base. -/
def IdProvider.start_by (starting_value : Nat) : IdProvider :=
  ⟨starting_value⟩

/-- IdProvider::generate_next: returns the current counter and advances
it by one (state-passing model of &mut self). -/
def IdProvider.generate_next (p : IdProvider) : Nat × IdProvider :=
  (p.next_id, ⟨p.next_id + 1⟩)

/-- Id (util/id.rs): a usually unique ID referencing an entity. -/
structure Id where
  value : Nat
  deriving DecidableEq

/-- Special (order_model/special.rs): a named add-on of a meal. -/
structure Special where
  id : Id
  description : String
  deriving DecidableEq

/-- SpecialFactory (order_model/special.rs): creates specials with ids
from its own IdProvider. -/
structure SpecialFactory where
  id_provider : IdProvider
  deriving DecidableEq

/-- SpecialFactory::new(). -/
def SpecialFactory.new : SpecialFactory := ⟨IdProvider.new⟩

/-- Meal (order_model/meal.rs): a priced line item with a unique id, a
menu code (meal_id), a variety, its specials keyed by id, and its own
special factory. -/
structure Meal where
  id : Nat
  meal_id : String
  variety : String
  price : Money
  specials : List (Nat × Special)
  special_factory : SpecialFactory
  deriving DecidableEq

/-- Meal::new. -/
def Meal.new (id : Nat) (meal_id variety : String) (price : Money)
    (specials : List (Nat × Special)) (special_factory : SpecialFactory) :
    Meal :=
  ⟨id, meal_id, variety, price, specials, special_factory⟩

/-- Meal::get_id. -/
def Meal.get_id (m : Meal) : Nat := m.id

/-- Meal::get_price. -/
def Meal.get_price (m : Meal) : Money := m.price

/-- MealFactory (order_model/meal.rs): creates meals with ids from its
IdProvider. -/
structure MealFactory where
  id_provider : IdProvider
  deriving DecidableEq

/-- MealFactory::new(): id counter starts at 0. -/
def MealFactory.new : MealFactory := ⟨IdProvider.new⟩

/-- MealFactory::start_by(starting_value): id counter starts at the
given base. -/
def MealFactory.start_by (starting_value : Nat) : MealFactory :=
  ⟨IdProvider.start_by starting_value⟩

/-- MealFactory::create_meal: Meal::new with the next generated id, an
empty specials map and a fresh SpecialFactory (state-passing model of
&mut self). -/
def MealFactory.create_meal (f : MealFactory) (meal_id variety : String)
    (price : Money) : Meal × MealFactory :=
  let (id, p) := f.id_provider.generate_next
  (Meal.new id meal_id variety price [] SpecialFactory.new, ⟨p⟩)

/-- A sequence of create_meal calls on one factory instance: returns the
meals in call order together with the final factory state. -/
def runCreates (f : MealFactory) :
    List (String × String × Money) → List Meal × MealFactory
  | [] => ([], f)
  | a :: rest =>
    let (meal, f1) := f.create_meal a.1 a.2.1 a.2.2
    let (ms, f2) := runCreates f1 rest
    (meal :: ms, f2)

theorem runCreates_length (f : MealFactory)
    (args : List (String × String × Money)) :
    (runCreates f args).1.length = args.length := by
  induction args generalizing f with
  | nil => rfl
  | cons a rest ih => simp [runCreates, ih]

theorem runCreates_id_eq (f : MealFactory)
    (args : List (String × String × Money)) (k : Nat)
    (hk : k < (runCreates f args).1.length) :
    ((runCreates f args).1.get ⟨k, hk⟩).id = f.id_provider.next_id + k := by
  induction args generalizing f k with
  | nil => simp [runCreates] at hk
  | cons a rest ih =>
    cases k with
    | zero =>
      simp [runCreates, MealFactory.create_meal, IdProvider.generate_next,
        Meal.new]
    | succ k =>
      have hklen := hk
      rw [runCreates_length] at hklen
      have hk' : k < (runCreates
          (⟨⟨f.id_provider.next_id + 1⟩⟩ : MealFactory) rest).1.length := by
        rw [runCreates_length]
        simp at hklen
        omega
      have := ih (⟨⟨f.id_provider.next_id + 1⟩⟩ : MealFactory) k hk'
      simp [runCreates, MealFactory.create_meal, IdProvider.generate_next,
        List.get] at this ⊢
      omega

/-- C5: any two distinct create_meal calls on the same MealFactory
instance yield meals with unequal ids, regardless of the (possibly
identical) code/variety/price arguments: the ids come from a
monotonically increasing counter. -/
theorem meal_factory_ids_unique (f : MealFactory)
    (args : List (String × String × Money))
    (i j : Fin (runCreates f args).1.length) (hij : i ≠ j) :
    ((runCreates f args).1.get i).id ≠ ((runCreates f args).1.get j).id := by
  intro h
  apply hij
  apply Fin.ext
  have hi : ((runCreates f args).1.get i).id
      = f.id_provider.next_id + i.1 := runCreates_id_eq f args i.1 i.2
  have hj : ((runCreates f args).1.get j).id
      = f.id_provider.next_id + j.1 := runCreates_id_eq f args j.1 j.2
  omega

/-- Witness for C5: two create_meal calls with identical arguments on a
fresh factory produce different ids (0 and 1). -/
theorem meal_factory_ids_unique_witness :
    ((runCreates MealFactory.new
        [("03", "groß", Money.new 5 50), ("03", "groß", Money.new 5 50)]).1.get
        ⟨0, by decide⟩).id
    ≠ ((runCreates MealFactory.new
        [("03", "groß", Money.new 5 50), ("03", "groß", Money.new 5 50)]).1.get
        ⟨1, by decide⟩).id :=
  meal_factory_ids_unique MealFactory.new
    [("03", "groß", Money.new 5 50), ("03", "groß", Money.new 5 50)]
    ⟨0, by decide⟩ ⟨1, by decide⟩ (by decide)

/-- HashMap::insert on the association-list model: replace the value of
an existing key, else append the new entry. -/
def insertAssoc {α β : Type} [DecidableEq α] (k : α) (v : β) :
    List (α × β) → List (α × β)
  | [] => [(k, v)]
  | (k1, v1) :: rest =>
    if k1 = k then (k, v) :: rest else (k1, v1) :: insertAssoc k v rest

/-- HashMap::get on the association-list model. -/
def lookupAssoc {α β : Type} [DecidableEq α] (k : α) :
    List (α × β) → Option β
  | [] => none
  | (k1, v1) :: rest => if k1 = k then some v1 else lookupAssoc k rest

theorem lookupAssoc_insertAssoc {α β : Type} [DecidableEq α] (k : α)
    (v : β) (l : List (α × β)) :
    lookupAssoc k (insertAssoc k v l) = some v := by
  induction l with
  | nil => simp [insertAssoc, lookupAssoc]
  | cons p rest ih =>
    by_cases h : p.1 = k
    · simp [insertAssoc, lookupAssoc, h]
    · simp [insertAssoc, lookupAssoc, h, ih]

/-- ChangeMoneyError (order_model/meals.rs): a participant underpaid by
the carried amount. -/
inductive ChangeMoneyError where
  | Underpaid : Money → ChangeMoneyError
  deriving DecidableEq

/-- ChangeMoneyError::get_value. -/
def ChangeMoneyError.get_value : ChangeMoneyError → Money
  | .Underpaid missing => missing

/-- Meals (order_model/meals.rs): one participant's ledger — meals keyed
by their unique id, the owner's user id, the ready flag, the paid amount
and the tip. -/
structure Meals where
  meals : List (Nat × Meal)
  owner_id : Nat
  ready : Bool
  paid : Money
  tip : Money
  deriving DecidableEq

/-- Meals::new(user_id): empty ledger, not ready, paid and tip zero. -/
def Meals.new (user_id : Nat) : Meals :=
  ⟨[], user_id, false, Money.new 0 0, Money.new 0 0⟩

/-- Meals::add_meal: insert keyed by the meal's id (replacing an entry
with the same id, as HashMap::insert does). -/
def Meals.add_meal (m : Meals) (meal : Meal) : Meals :=
  { m with meals := insertAssoc meal.get_id meal m.meals }

/-- Meals::set_paid: unconditional overwrite of paid. -/
def Meals.set_paid (m : Meals) (paid : Money) : Meals :=
  { m with paid := paid }

/-- Meals::get_tip. -/
def Meals.get_tip (m : Meals) : Money := m.tip

/-- Meals::set_tip: unconditional overwrite of tip. -/
def Meals.set_tip (m : Meals) (tip : Money) : Meals :=
  { m with tip := tip }

/-- Meals::calculate_total_price: sum of the prices of all contained
meals, starting from zero. -/
def Meals.calculate_total_price (m : Meals) : Money :=
  m.meals.foldl (fun acc p => acc.add p.2.get_price) (Money.new 0 0)

/-- Meals::calculate_change: owed is total price plus tip; underpaid is
an error carrying owed - paid, otherwise ok with paid - owed.  The
branch guard makes both u32 subtractions exact, so plain Nat subtraction
models them. -/
def Meals.calculate_change (m : Meals) : Except ChangeMoneyError Money :=
  let has_to_pay := m.calculate_total_price.add m.tip
  if m.paid.get_total_cents < has_to_pay.get_total_cents then
    .error (.Underpaid ⟨has_to_pay.cents - m.paid.cents⟩)
  else
    .ok ⟨m.paid.cents - has_to_pay.cents⟩

/-- C2: with owed = calculate_total_price() + tip, calculate_change
returns ok (paid - owed) whenever paid >= owed (in particular ok zero at
exact payment), and otherwise returns the structured Underpaid
(owed - paid) error as a value — it is a total function, never a
panic. -/
theorem meals_calculate_change_spec (m : Meals) :
    ((m.calculate_total_price.add m.tip).cents ≤ m.paid.cents →
      m.calculate_change
        = .ok ⟨m.paid.cents - (m.calculate_total_price.add m.tip).cents⟩)
    ∧ (m.paid.cents < (m.calculate_total_price.add m.tip).cents →
      m.calculate_change
        = .error (.Underpaid
            ⟨(m.calculate_total_price.add m.tip).cents - m.paid.cents⟩)) := by
  constructor
  · intro h
    simp [Meals.calculate_change, Money.get_total_cents, Nat.not_lt.mpr h]
  · intro h
    simp [Meals.calculate_change, Money.get_total_cents, h]

/-- The ledger of the spec's Scenario A/B: meals priced 2,25 + 5,50 +
7,37 (total 15,12) and tip 2,20, with the paid amount left as a
parameter. -/
def scenarioLedger (paid : Money) : Meals :=
  ⟨[(0, Meal.new 0 "01" "klein" (Money.new 2 25) [] SpecialFactory.new),
    (1, Meal.new 1 "02" "mittel" (Money.new 5 50) [] SpecialFactory.new),
    (2, Meal.new 2 "03" "groß" (Money.new 7 37) [] SpecialFactory.new)],
   0, false, paid, Money.new 2 20⟩

/-- Witness for C2 at the spec's Scenario A (paid 17,32: exact payment,
change zero) and Scenario B (paid 15,00: underpaid by 2,32). -/
theorem meals_calculate_change_spec_witness :
    (scenarioLedger (Money.new 17 32)).calculate_change = .ok ⟨0⟩
    ∧ (scenarioLedger (Money.new 15 0)).calculate_change
      = .error (.Underpaid ⟨232⟩) :=
  ⟨(meals_calculate_change_spec (scenarioLedger (Money.new 17 32))).1
      (by decide),
   (meals_calculate_change_spec (scenarioLedger (Money.new 15 0))).2
      (by decide)⟩

/-- C10: set_paid overwrites only the paid field and set_tip only the
tip field; the meal map, the owner id, the ready flag and the other
monetary field are unchanged. -/
theorem meals_set_paid_set_tip_frame (m : Meals) (a : Money) :
    (m.set_paid a).paid = a
    ∧ (m.set_paid a).meals = m.meals
    ∧ (m.set_paid a).owner_id = m.owner_id
    ∧ (m.set_paid a).ready = m.ready
    ∧ (m.set_paid a).tip = m.tip
    ∧ (m.set_tip a).tip = a
    ∧ (m.set_tip a).meals = m.meals
    ∧ (m.set_tip a).owner_id = m.owner_id
    ∧ (m.set_tip a).ready = m.ready
    ∧ (m.set_tip a).paid = m.paid := by
  simp [Meals.set_paid, Meals.set_tip]

/-- User (order_model/user.rs): an identified, named participant. -/
structure User where
  id : Id
  name : String
  deriving DecidableEq

/-- OrderStatus (order_model/order.rs). -/
inductive OrderStatus where
  | Open
  | Ordering
  | Ordered : String → OrderStatus
  | Delivered
  deriving DecidableEq

/-- OrderError (order_model/order.rs). -/
inductive OrderError where
  | UserNotParticipating
  deriving DecidableEq

/-- NotAllPaidEnoughError (order_model/order.rs): either the group as a
whole is short (Underpaid) or the group has enough but some participants
must settle up (EnoughInTotal); both carry the set of users who paid
less than they owed. -/
inductive NotAllPaidEnoughError where
  | Underpaid : Money → Finset User → NotAllPaidEnoughError
  | EnoughInTotal : Money → Finset User → NotAllPaidEnoughError
  deriving DecidableEq

/-- Order (order_model/order.rs): per-user ledgers, a status, the
manager and the single shared MealFactory. -/
structure Order where
  meals : List (User × Meals)
  status : OrderStatus
  manager : User
  meal_factory : MealFactory
  deriving DecidableEq

/-- Order::new(manager): no ledgers, Open, fresh MealFactory. -/
def Order.new (manager : User) : Order :=
  ⟨[], .Open, manager, MealFactory.new⟩

/-- Order::add_user: unconditionally inserts a fresh empty ledger for
the user (HashMap::insert replaces any existing ledger of that key). -/
def Order.add_user (o : Order) (user : User) : Order :=
  { o with meals := insertAssoc user (Meals.new user.id.value) o.meals }

/-- Order::add_meal_for_user: looks the user's ledger up; when absent,
fails with UserNotParticipating leaving the order untouched; when
present, creates the meal through the order's shared MealFactory, adds
it to that ledger and returns it (state-passing model of &mut self). -/
def Order.add_meal_for_user (o : Order) (user : User)
    (meal_id variety : String) (price : Money) :
    Except OrderError Meal × Order :=
  match lookupAssoc user o.meals with
  | some ms =>
    let (meal, f1) := o.meal_factory.create_meal meal_id variety price
    (.ok meal,
     { o with
        meals := insertAssoc user (ms.add_meal meal) o.meals,
        meal_factory := f1 })
  | none => (.error .UserNotParticipating, o)

/-- The accumulation loop of Order::calculate_total_change: for each
ledger, an ok change is added to total_change, an Underpaid error adds
its magnitude to underpaid and records the owner (the map key) in
paid_less. -/
def Order.ctcLoop : List (User × Meals) → Money → Money → Finset User →
    Money × Money × Finset User
  | [], tc, tu, pl => (tc, tu, pl)
  | (u, m) :: rest, tc, tu, pl =>
    match m.calculate_change with
    | .ok change => Order.ctcLoop rest (tc.add change) tu pl
    | .error e => Order.ctcLoop rest tc (tu.add e.get_value) (insert u pl)

/-- Order::calculate_total_change: run the loop from zeros, then branch:
no underpayment at all gives ok total_change; total_change strictly
above underpaid gives EnoughInTotal with the difference; otherwise
Underpaid with the opposite difference.  Source comparisons are by total
cents; both guarded u32 subtractions are exact, hence plain Nat
subtraction. -/
def Order.calculate_total_change (o : Order) :
    Except NotAllPaidEnoughError Money :=
  let r := Order.ctcLoop o.meals Money.zero Money.zero ∅
  if r.2.1.get_total_cents = 0 then
    .ok r.1
  else if r.2.1.get_total_cents < r.1.get_total_cents then
    .error (.EnoughInTotal ⟨r.1.cents - r.2.1.cents⟩ r.2.2)
  else
    .error (.Underpaid ⟨r.2.1.cents - r.1.cents⟩ r.2.2)

/-- Total cents of successful per-ledger changes, in the claim's
vocabulary (totalChange). -/
def sumChanges : List (User × Meals) → Nat
  | [] => 0
  | (_, m) :: rest =>
    (match m.calculate_change with
     | .ok c => c.cents
     | .error _ => 0) + sumChanges rest

/-- Total cents of per-ledger underpayment magnitudes, in the claim's
vocabulary (totalUnderpaid). -/
def sumUnderpaid : List (User × Meals) → Nat
  | [] => 0
  | (_, m) :: rest =>
    (match m.calculate_change with
     | .ok _ => 0
     | .error e => e.get_value.cents) + sumUnderpaid rest

/-- The set of owners whose ledger reported an underpayment, in the
claim's vocabulary (paidLess). -/
def underpaidUsers : List (User × Meals) → Finset User
  | [] => ∅
  | (u, m) :: rest =>
    match m.calculate_change with
    | .ok _ => underpaidUsers rest
    | .error _ => insert u (underpaidUsers rest)

/-- totalChange of an order. -/
def Order.totalChange (o : Order) : Nat := sumChanges o.meals

/-- totalUnderpaid of an order. -/
def Order.totalUnderpaid (o : Order) : Nat := sumUnderpaid o.meals

/-- paidLess of an order. -/
def Order.paidLess (o : Order) : Finset User := underpaidUsers o.meals

theorem ctcLoop_eq (l : List (User × Meals)) (tc tu : Money)
    (pl : Finset User) :
    Order.ctcLoop l tc tu pl
      = (⟨tc.cents + sumChanges l⟩, ⟨tu.cents + sumUnderpaid l⟩,
         pl ∪ underpaidUsers l) := by
  induction l generalizing tc tu pl with
  | nil => simp [Order.ctcLoop, sumChanges, sumUnderpaid, underpaidUsers]
  | cons p rest ih =>
    obtain ⟨u, m⟩ := p
    cases h : m.calculate_change with
    | ok c =>
      simp [Order.ctcLoop, sumChanges, sumUnderpaid, underpaidUsers, h, ih,
        Money.add, Nat.add_assoc]
    | error e =>
      simp [Order.ctcLoop, sumChanges, sumUnderpaid, underpaidUsers, h, ih,
        Money.add, Nat.add_assoc, Finset.insert_union, Finset.union_insert]

theorem calculate_total_change_eq (o : Order) :
    o.calculate_total_change
      = if o.totalUnderpaid = 0 then .ok ⟨o.totalChange⟩
        else if o.totalUnderpaid < o.totalChange then
          .error (.EnoughInTotal ⟨o.totalChange - o.totalUnderpaid⟩
            o.paidLess)
        else
          .error (.Underpaid ⟨o.totalUnderpaid - o.totalChange⟩
            o.paidLess) := by
  unfold Order.calculate_total_change
  rw [ctcLoop_eq]
  simp [Order.totalChange, Order.totalUnderpaid, Order.paidLess,
    Money.zero, Money.get_total_cents]

/-- C1: calculate_total_change accumulates every successful change into
totalChange and every Underpaid magnitude into totalUnderpaid while
recording the underpaying participants in the paidLess set; it succeeds
with totalChange when totalUnderpaid is zero, fails with EnoughInTotal
(totalChange - totalUnderpaid, paidLess) when totalChange exceeds
totalUnderpaid, and otherwise fails with Underpaid
(totalUnderpaid - totalChange, paidLess). -/
theorem order_calculate_total_change_spec (o : Order) :
    o.calculate_total_change
      = if o.totalUnderpaid = 0 then .ok ⟨o.totalChange⟩
        else if o.totalUnderpaid < o.totalChange then
          .error (.EnoughInTotal ⟨o.totalChange - o.totalUnderpaid⟩
            o.paidLess)
        else
          .error (.Underpaid ⟨o.totalUnderpaid - o.totalChange⟩
            o.paidLess) :=
  calculate_total_change_eq o

/-- C8: when the accumulated underpayment is nonzero and exactly equal
to the accumulated change, the result is the Underpaid variant with a
zero amount and the paidLess set — not EnoughInTotal, whose branch needs
totalChange strictly greater than totalUnderpaid. -/
theorem order_equal_amounts_gives_underpaid_zero (o : Order)
    (h1 : o.totalUnderpaid ≠ 0) (h2 : o.totalChange = o.totalUnderpaid) :
    o.calculate_total_change = .error (.Underpaid ⟨0⟩ o.paidLess) := by
  rw [calculate_total_change_eq]
  simp [h1, h2]

/-- A one-meal ledger: one meal of the given price, the given paid
amount, no tip. -/
def simpleLedger (uid mealUid : Nat) (price paid : Money) : Meals :=
  ⟨[(mealUid, Meal.new mealUid "03" "groß" price [] SpecialFactory.new)],
   uid, false, paid, Money.new 0 0⟩

/-- A participant. -/
def userAnna : User := ⟨⟨1⟩, "Anna"⟩

/-- Another participant. -/
def userBernd : User := ⟨⟨2⟩, "Bernd"⟩

/-- An order in which Anna overpaid by exactly the amount Bernd is
short: totalChange = totalUnderpaid = 500 cents. -/
def orderBalanced : Order :=
  ⟨[(userAnna, simpleLedger 1 0 (Money.new 5 0) (Money.new 10 0)),
    (userBernd, simpleLedger 2 1 (Money.new 5 0) (Money.new 0 0))],
   .Open, userAnna, MealFactory.new⟩

/-- Witness for C8 on orderBalanced: nonzero underpayment equal to the
change yields Underpaid zero with the paidLess set. -/
theorem order_equal_amounts_gives_underpaid_zero_witness :
    orderBalanced.totalUnderpaid ≠ 0
    ∧ orderBalanced.totalChange = orderBalanced.totalUnderpaid
    ∧ orderBalanced.calculate_total_change
      = .error (.Underpaid ⟨0⟩ orderBalanced.paidLess) :=
  ⟨by decide, by decide,
   order_equal_amounts_gives_underpaid_zero orderBalanced (by decide)
     (by decide)⟩

/-- C3: add_meal_for_user on a user without a ledger fails with the
participant-not-in-order error and leaves the order (its ledgers and its
shared factory counter) unchanged; on a participating user it creates
the meal through the order's single shared MealFactory (advancing it),
stores the meal in that user's ledger under its id, and returns it. -/
theorem order_add_meal_for_user_spec (o : Order) (user : User)
    (mid var : String) (price : Money) :
    (lookupAssoc user o.meals = none →
      o.add_meal_for_user user mid var price
        = (.error .UserNotParticipating, o))
    ∧ ∀ ledger : Meals, lookupAssoc user o.meals = some ledger →
        ∃ o2 : Order,
          o.add_meal_for_user user mid var price
            = (.ok (o.meal_factory.create_meal mid var price).1, o2)
          ∧ o2.meal_factory = (o.meal_factory.create_meal mid var price).2
          ∧ lookupAssoc user o2.meals
            = some (ledger.add_meal
                (o.meal_factory.create_meal mid var price).1)
          ∧ lookupAssoc
                (o.meal_factory.create_meal mid var price).1.get_id
                (ledger.add_meal
                  (o.meal_factory.create_meal mid var price).1).meals
            = some (o.meal_factory.create_meal mid var price).1 := by
  constructor
  · intro h
    simp [Order.add_meal_for_user, h]
  · intro ledger h
    refine ⟨{ o with
        meals := insertAssoc user
          (ledger.add_meal (o.meal_factory.create_meal mid var price).1)
          o.meals,
        meal_factory := (o.meal_factory.create_meal mid var price).2 },
      ?_, rfl, lookupAssoc_insertAssoc _ _ _, ?_⟩
    · simp [Order.add_meal_for_user, h]
    · simp [Meals.add_meal, lookupAssoc_insertAssoc]

/-- An order whose only participant is Anna, with an empty ledger. -/
def orderSolo : Order :=
  ⟨[(userAnna, Meals.new 1)], .Open, userAnna, MealFactory.new⟩

/-- Witness for C3 on orderSolo: adding a meal for the absent Bernd
fails leaving the order unchanged; adding one for Anna stores and
returns the factory-created meal. -/
theorem order_add_meal_for_user_spec_witness :
    orderSolo.add_meal_for_user userBernd "03" "groß" (Money.new 5 50)
      = (.error .UserNotParticipating, orderSolo)
    ∧ ∃ o2 : Order,
        orderSolo.add_meal_for_user userAnna "03" "groß" (Money.new 5 50)
          = (.ok (orderSolo.meal_factory.create_meal "03" "groß"
              (Money.new 5 50)).1, o2)
        ∧ o2.meal_factory
          = (orderSolo.meal_factory.create_meal "03" "groß"
              (Money.new 5 50)).2
        ∧ lookupAssoc userAnna o2.meals
          = some ((Meals.new 1).add_meal
              (orderSolo.meal_factory.create_meal "03" "groß"
                (Money.new 5 50)).1)
        ∧ lookupAssoc
              (orderSolo.meal_factory.create_meal "03" "groß"
                (Money.new 5 50)).1.get_id
              ((Meals.new 1).add_meal
                (orderSolo.meal_factory.create_meal "03" "groß"
                  (Money.new 5 50)).1).meals
          = some (orderSolo.meal_factory.create_meal "03" "groß"
              (Money.new 5 50)).1 :=
  ⟨(order_add_meal_for_user_spec orderSolo userBernd "03" "groß"
      (Money.new 5 50)).1 (by decide),
   (order_add_meal_for_user_spec orderSolo userAnna "03" "groß"
      (Money.new 5 50)).2 (Meals.new 1) (by decide)⟩

/-- C9: add_user on a user who already has a ledger does not fail and
replaces that ledger with a fresh empty one — the previously added meals
are discarded and paid and tip are reset to zero. -/
theorem order_add_user_replaces_ledger (o : Order) (u : User)
    (ledger : Meals) (_h : lookupAssoc u o.meals = some ledger) :
    lookupAssoc u (o.add_user u).meals = some (Meals.new u.id.value)
    ∧ (Meals.new u.id.value).meals = []
    ∧ (Meals.new u.id.value).paid = Money.new 0 0
    ∧ (Meals.new u.id.value).tip = Money.new 0 0 := by
  refine ⟨?_, rfl, rfl, rfl⟩
  simp [Order.add_user, lookupAssoc_insertAssoc]

/-- An order in which Anna has a non-empty ledger with nonzero paid and
tip. -/
def orderLoaded : Order :=
  ⟨[(userAnna, scenarioLedger (Money.new 17 32))], .Open, userAnna,
   MealFactory.new⟩

/-- Witness for C9 on orderLoaded: re-adding Anna swaps her loaded
ledger for a fresh empty one. -/
theorem order_add_user_replaces_ledger_witness :
    lookupAssoc userAnna (orderLoaded.add_user userAnna).meals
      = some (Meals.new userAnna.id.value)
    ∧ (Meals.new userAnna.id.value).meals = []
    ∧ (Meals.new userAnna.id.value).paid = Money.new 0 0
    ∧ (Meals.new userAnna.id.value).tip = Money.new 0 0 :=
  order_add_user_replaces_ledger orderLoaded userAnna
    (scenarioLedger (Money.new 17 32)) (by decide)

end RustyPizza
